import Mathlib

/-!
Shallow embedding of the gluish artifact-addressing layer.

Sources embedded:
* `gluish/task.py` — `nearest` and `BaseTask.path` (the canonical path
  builder);
* `gluish/common.py` — `SplitFile` (the chunking task) and `Executable`
  (the presence-check task).

Machine integers are modelled as `Int`/`Nat`; Python 2 integer division
(`/` on ints, which is floor division) is `Int.fdiv`.  Fallible code
returns `Except`/`Option`.  External collaborators (`hashlib.sha1`, the
`split` binary, `which`) are either taken as function parameters or
modelled from the spec, as noted on each definition.
-/

namespace Gluish

/-- error raised by `BaseTask.path` when `TAG` or `BASE` is still
`NotImplemented`: `RuntimeError('TAG and BASE must be set.')`. -/
inductive PathError where
  | notConfigured
deriving DecidableEq

/-- `os.path.join` on two components (posixpath semantics): an absolute
second component replaces the first, otherwise the parts are joined with a
single separator. -/
def osPathJoin (a b : String) : String :=
  if b.data.head? = some '/' then b
  else if a = "" ∨ a.data.getLast? = some '/' then a ++ b
  else a ++ "/" ++ b

/-- lexicographic strict order on character lists by codepoint, the order in
which Python's `sorted` ranks the byte strings produced by `'{k}-{v}'`
(UTF-8 byte order coincides with codepoint order). -/
def charListLt : List Char → List Char → Bool
  | [], [] => false
  | [], _ :: _ => true
  | _ :: _, [] => false
  | a :: as, b :: bs =>
      if a.toNat < b.toNat then true
      else if b.toNat < a.toNat then false
      else charListLt as bs

/-- the `≤` that Python's `sorted` uses on strings. -/
def strLe (a b : String) : Bool :=
  !(charListLt b.data a.data)

/-- `strLe` as a relation, for `List.insertionSort`. -/
def strLeP (a b : String) : Prop :=
  strLe a b = true

instance : DecidableRel strLeP := fun a b =>
  inferInstanceAs (Decidable (strLe a b = true))

/-- the `cbmap` loop of `BaseTask.path`: for each `(key, callback)` entry of
the callback dictionary, if `key` is a key of `task_params`, set
`task_params[key] = callback(self)`.  Parameters are an association list
(the insertion-ordered view of the Python dict). -/
def applyCbmap {σ : Type} (self : σ) :
    List (String × (σ → String)) → List (String × String) → List (String × String)
  | [], ps => ps
  | kc :: rest, ps =>
      applyCbmap self rest
        (if kc.1 ∈ ps.map Prod.fst then
          ps.map (fun p => if p.1 = kc.1 then (p.1, kc.2 self) else p)
        else ps)

/-- filename stem computed by `BaseTask.path` when `filename is None`: the
`'{k}-{v}'` parts of the (callback-adjusted) parameters, sorted and joined
with `'-'`, defaulting to `'output'` when empty, then optionally replaced by
its digest.  `sha1hex` stands for the external
`hashlib.sha1(name).hexdigest()`. -/
def buildName {σ : Type} (sha1hex : String → String) (self : σ)
    (cbmap : List (String × (σ → String))) (params : List (String × String))
    (digest : Bool) : String :=
  let ps := applyCbmap self cbmap params
  let parts := ps.map (fun p => p.1 ++ "-" ++ p.2)
  let name := String.intercalate "-" (List.insertionSort strLeP parts)
  let name := if name.length = 0 then "output" else name
  if digest then sha1hex name else name

/-- `BaseTask.path` from `gluish/task.py`.  `BASE`/`TAG` are `none` when the
class attribute is `NotImplemented`; `task_name` and `task_params` are the
two components of `id_to_name_and_params(self.task_id)` (an external luigi
helper); `self` is the task object, consumed only by the `cbmap` callbacks;
`sha1hex` stands for the external SHA-1 hex digest. -/
def path {σ : Type} (sha1hex : String → String) (BASE TAG : Option String)
    (task_name : String) (task_params : List (String × String)) (self : σ)
    (filename : Option String) (ext : String) (digest : Bool)
    (cbmap : List (String × (σ → String))) : Except PathError String :=
  if TAG = none ∨ BASE = none then .error .notConfigured
  else
    let fn :=
      match filename with
      | some f => f
      | none => buildName sha1hex self cbmap task_params digest ++ "." ++ ext
    .ok (osPathJoin (osPathJoin (osPathJoin (BASE.getD "") (TAG.getD "")) task_name) fn)

/-- a Python object as seen by `nearest` in `gluish/task.py`: it may or may
not carry a `nearest` attribute, which is either callable or a plain
value. -/
structure PyObj where
  nearestAttr : Option (Sum (Unit → String) String)

/-- error raised by `nearest` when the attribute is absent:
`AttributeError('Missing attribute.')`. -/
inductive AttrError where
  | missingAttribute
deriving DecidableEq

/-- `nearest(obj)` from `gluish/task.py`: raise `AttributeError` if `obj`
has no `nearest` attribute, else return `obj.nearest()` if it is callable
else `obj.nearest`. -/
def nearest (obj : PyObj) : Except AttrError String :=
  match obj.nearestAttr with
  | none => .error .missingAttribute
  | some (.inl f) => .ok (f ())
  | some (.inr v) => .ok v

/-- `lines = int((line_count + self.chunks) / self.chunks)` from
`SplitFile.run` in `gluish/common.py`; Python 2 `/` on integers is floor
division, so this is `Int.fdiv` (the `int(..)` wrapper is the identity on
ints). -/
def linesPerChunk (line_count chunks : Int) : Int :=
  (line_count + chunks).fdiv chunks

/-- Modelled from the spec: the external `split -l n` call (through
`gluish.utils.shellout`, not under src/) partitions the input into
consecutive chunks of `n` lines each, the last possibly shorter.  `fuel`
bounds the recursion structurally; with `fuel ≥ ls.length` and `n ≥ 1` it
never runs out. -/
def splitChunksFuel {α : Type} (n : Nat) : Nat → List α → List (List α)
  | _, [] => []
  | 0, _ :: _ => []
  | fuel + 1, a :: rest =>
      List.take n (a :: rest) :: splitChunksFuel n fuel (List.drop n (a :: rest))

/-- chunks produced by `split -l n` on a file whose lines are `ls`. -/
def splitChunks {α : Type} (n : Nat) (ls : List α) : List (List α) :=
  splitChunksFuel n ls.length ls

/-- error terminating `SplitFile.run` early. -/
inductive RunErr where
  /-- `open(self.filename)` failed: unreadable input file. -/
  | ioError
  /-- `chunks == 0`: `ZeroDivisionError` while computing `lines`. -/
  | zeroDivision
  /-- the `split` invocation exited non-zero, so `shellout` raised. -/
  | shellError
deriving DecidableEq

/-- observable filesystem outcome of one `SplitFile.run` invocation. -/
structure RunOutcome where
  /-- `os.makedirs(taskdir)` was reached. -/
  madeDir : Bool
  /-- chunk files written, in creation order; each is its list of lines. -/
  chunkFiles : List (List String)
  /-- manifest contents (the listed chunk files, in manifest order), if the
  manifest was written. -/
  manifest : Option (List (List String))
  /-- the error that aborted the run, if any. -/
  error : Option RunErr
deriving DecidableEq

/-- `SplitFile.run` from `gluish/common.py`, over an input file given as its
list of lines (`none` when the file is unreadable).  The helpers it calls
(`shellout`, `iterfiles`, `random_string` from `gluish.utils`/`gluish.path`,
not under src/) and the external `split` binary are modelled from the spec:
`split -l n` writes consecutive `n`-line chunks under a fresh random prefix
with fixed-width suffixes that increase lexicographically, and rejects a
non-positive `n` before writing anything; `sorted(iterfiles(taskdir))`
filtered by that prefix therefore lists exactly this invocation's chunks in
creation order. -/
def splitFileRun (file : Option (List String)) (chunks : Int) : RunOutcome :=
  match file with
  | none => ⟨false, [], none, some .ioError⟩
  | some ls =>
      if chunks = 0 then ⟨false, [], none, some .zeroDivision⟩
      else
        let lines := linesPerChunk ls.length chunks
        if lines ≤ 0 then ⟨true, [], none, some .shellError⟩
        else
          let cs := splitChunks lines.toNat ls
          ⟨true, cs, some cs, none⟩

/-- calendar date, for the `ExampleTask` of the `BaseTask.path`
docstring. -/
structure Date where
  year : Nat
  month : Nat
  day : Nat
deriving DecidableEq

/-- two-digit zero padding, as in ISO date serialization. -/
def pad2 (n : Nat) : String :=
  if n < 10 then "0" ++ toString n else toString n

/-- ISO rendering of a date, as `str(datetime.date(..))` produces and as
luigi serializes a `DateParameter` into the task id. -/
def showDate (d : Date) : String :=
  toString d.year ++ "-" ++ pad2 d.month ++ "-" ++ pad2 d.day

/-- the `ExampleTask` from the `BaseTask.path` docstring: a task with a
`date` parameter and a `nearest` method mapping any date to the first day of
its month. -/
structure ExampleTask where
  date : Date

/-- `ExampleTask.nearest`: map any given date to the first day of the
month. -/
def ExampleTask.nearestDate (t : ExampleTask) : Date :=
  ⟨t.date.year, t.date.month, 1⟩

/-- the callback dictionary `{'date': lambda obj: obj.nearest()}` of the
`ExampleTask` docstring; the produced date is serialized into the parameter
value. -/
def exampleCbmap : List (String × (ExampleTask → String)) :=
  [("date", fun t => showDate t.nearestDate)]

/-- `ExampleTask.output()`: `self.path(cbmap=cbmap)` with the defaults
`ext='tsv'`, `digest=False`; the task's serialized parameters are any other
parameters plus the `date` parameter. -/
def examplePath (sha1hex : String → String) (BASE TAG : Option String)
    (otherParams : List (String × String)) (t : ExampleTask) :
    Except PathError String :=
  path sha1hex BASE TAG "ExampleTask" (otherParams ++ [("date", showDate t.date)])
    t none "tsv" false exampleCbmap

/-- Modelled from the spec: `which` from `gluish/path.py` (not under src/);
per the spec it "queries the host environment's executable search mechanism
for a named binary", the environment being the list of resolvable executable
names. -/
def which (searchPath : List String) (name : String) : Option String :=
  if name ∈ searchPath then some name else none

/-- `Executable.complete` from `gluish/common.py`:
`which(self.name) is not None`. -/
def executableComplete (searchPath : List String) (name : String) : Bool :=
  (which searchPath name).isSome

/-- `Executable.run` from `gluish/common.py`:
`raise RuntimeError('External app %s required.\n%s' % (self.name, self.message))`. -/
def executableRun (name message : String) : Except String Unit :=
  .error ("External app " ++ name ++ " required.\n" ++ message)

/-- decidable equality for `Except`, so that concrete path computations can
be checked by `decide`. -/
instance exceptDecEq {ε α : Type} [DecidableEq ε] [DecidableEq α] :
    DecidableEq (Except ε α) := fun a b =>
  match a, b with
  | .ok x, .ok y =>
      if h : x = y then .isTrue (by rw [h])
      else .isFalse (fun c => by cases c; exact h rfl)
  | .error x, .error y =>
      if h : x = y then .isTrue (by rw [h])
      else .isFalse (fun c => by cases c; exact h rfl)
  | .ok _, .error _ => .isFalse (fun c => by cases c)
  | .error _, .ok _ => .isFalse (fun c => by cases c)

/-! ### Order facts about the sorting comparison -/

theorem charListLt_asymm (as : List Char) :
    ∀ bs, charListLt as bs = true → charListLt bs as = false := by
  induction as with
  | nil =>
      intro bs h
      cases bs with
      | nil => simp [charListLt] at h
      | cons b bs => simp [charListLt]
  | cons a as ih =>
      intro bs h
      cases bs with
      | nil => simp [charListLt] at h
      | cons b bs =>
          simp only [charListLt] at h ⊢
          by_cases h1 : a.toNat < b.toNat
          · rw [if_neg (by omega), if_pos h1]
          · by_cases h2 : b.toNat < a.toNat
            · rw [if_neg h1, if_pos h2] at h
              exact absurd h (by simp)
            · rw [if_neg h1, if_neg h2] at h
              rw [if_neg h2, if_neg h1]
              exact ih bs h

theorem charListLt_trichotomy (as : List Char) :
    ∀ bs, charListLt as bs = true ∨ as = bs ∨ charListLt bs as = true := by
  induction as with
  | nil =>
      intro bs
      cases bs with
      | nil => exact Or.inr (Or.inl rfl)
      | cons b bs => exact Or.inl (by simp [charListLt])
  | cons a as ih =>
      intro bs
      cases bs with
      | nil => exact Or.inr (Or.inr (by simp [charListLt]))
      | cons b bs =>
          by_cases h1 : a.toNat < b.toNat
          · exact Or.inl (by simp [charListLt, h1])
          · by_cases h2 : b.toNat < a.toNat
            · exact Or.inr (Or.inr (by simp [charListLt, h2]))
            · have hval : a = b := by
                have h3 : a.toNat = b.toNat := by omega
                exact Char.ext (UInt32.ext h3)
              rcases ih bs with h | h | h
              · exact Or.inl (by simp [charListLt, h1, h2, h])
              · exact Or.inr (Or.inl (by rw [hval, h]))
              · exact Or.inr (Or.inr (by simp [charListLt, h1, h2, hval, h]))

theorem charListLt_trans (as : List Char) :
    ∀ bs cs, charListLt as bs = true → charListLt bs cs = true →
      charListLt as cs = true := by
  induction as with
  | nil =>
      intro bs cs h1 h2
      cases cs with
      | nil => cases bs <;> simp [charListLt] at h2
      | cons c cs => simp [charListLt]
  | cons a as ih =>
      intro bs cs h1 h2
      cases bs with
      | nil => simp [charListLt] at h1
      | cons b bs =>
          cases cs with
          | nil => simp [charListLt] at h2
          | cons c cs =>
              simp only [charListLt] at h1 h2 ⊢
              by_cases hab : a.toNat < b.toNat <;> by_cases hbc : b.toNat < c.toNat
              · rw [if_pos (by omega)]
              · by_cases hcb : c.toNat < b.toNat
                · rw [if_neg hbc, if_pos hcb] at h2
                  exact absurd h2 (by simp)
                · rw [if_pos (by omega)]
              · by_cases hba : b.toNat < a.toNat
                · rw [if_neg hab, if_pos hba] at h1
                  exact absurd h1 (by simp)
                · rw [if_pos (by omega)]
              · by_cases hba : b.toNat < a.toNat
                · rw [if_neg hab, if_pos hba] at h1
                  exact absurd h1 (by simp)
                · by_cases hcb : c.toNat < b.toNat
                  · rw [if_neg hbc, if_pos hcb] at h2
                    exact absurd h2 (by simp)
                  · rw [if_neg hab, if_neg hba] at h1
                    rw [if_neg hbc, if_neg hcb] at h2
                    rw [if_neg (by omega), if_neg (by omega)]
                    exact ih bs cs h1 h2

instance : IsTotal String strLeP := by
  constructor
  intro a b
  by_cases h : charListLt b.data a.data = true
  · exact Or.inr (by simp [strLeP, strLe, charListLt_asymm _ _ h])
  · exact Or.inl (by simp [strLeP, strLe]; simpa using h)

instance : IsTrans String strLeP := by
  constructor
  intro a b c h1 h2
  simp only [strLeP, strLe, Bool.not_eq_true', Bool.not_eq_true] at h1 h2 ⊢
  by_cases hca : charListLt c.data a.data = true
  · rcases charListLt_trichotomy b.data c.data with h | h | h
    · have := charListLt_trans b.data c.data a.data h hca
      rw [this] at h1
      cases h1
    · rw [← h] at hca
      rw [hca] at h1
      cases h1
    · rw [h] at h2
      cases h2
  · simpa using hca

instance : IsAntisymm String strLeP := by
  constructor
  intro a b h1 h2
  simp only [strLeP, strLe, Bool.not_eq_true'] at h1 h2
  rcases charListLt_trichotomy a.data b.data with h | h | h
  · rw [h] at h2
    cases h2
  · cases a with
    | mk da => cases b with
      | mk db => cases h; rfl
  · rw [h] at h1
    cases h1

/-- sorting with `strLeP` is a function of the multiset of elements: permuted
inputs sort to the same list. -/
theorem insertionSort_eq_of_perm (l₁ l₂ : List String) (h : l₁.Perm l₂) :
    List.insertionSort strLeP l₁ = List.insertionSort strLeP l₂ :=
  List.eq_of_perm_of_sorted
    ((List.perm_insertionSort strLeP l₁).trans
      (h.trans (List.perm_insertionSort strLeP l₂).symm))
    (List.sorted_insertionSort strLeP l₁) (List.sorted_insertionSort strLeP l₂)

/-! ### Helper lemmas about chunking and the chunk-size arithmetic -/

theorem splitChunksFuel_join {α : Type} (n : Nat) (hn : 1 ≤ n) :
    ∀ (fuel : Nat) (ls : List α), ls.length ≤ fuel →
      (splitChunksFuel n fuel ls).flatten = ls := by
  intro fuel
  induction fuel with
  | zero =>
      intro ls h
      cases ls with
      | nil => rfl
      | cons a rest => simp at h
  | succ f ih =>
      intro ls h
      cases ls with
      | nil => rfl
      | cons a rest =>
          simp only [splitChunksFuel, List.flatten_cons]
          rw [ih]
          · exact List.take_append_drop n (a :: rest)
          · have hd : (List.drop n (a :: rest)).length = (a :: rest).length - n :=
              List.length_drop n (a :: rest)
            simp only [List.length_cons] at h hd
            omega

theorem splitChunks_join {α : Type} (n : Nat) (hn : 1 ≤ n) (ls : List α) :
    (splitChunks n ls).flatten = ls :=
  splitChunksFuel_join n hn ls.length ls le_rfl

theorem linesPerChunk_pos (L c : Int) (hL : 0 ≤ L) (hc : 1 ≤ c) :
    1 ≤ linesPerChunk L c := by
  unfold linesPerChunk
  rw [Int.fdiv_eq_ediv _ (by omega)]
  rw [Int.le_ediv_iff_mul_le (by omega)]
  omega

theorem linesPerChunk_nonpos (L c : Int) (hL : 1 ≤ L) (hc : c ≤ -1) :
    linesPerChunk L c ≤ 0 := by
  unfold linesPerChunk
  rcases le_or_lt 0 (L + c) with h | h
  · exact Int.fdiv_nonpos h (by omega)
  · obtain ⟨m, hm⟩ : ∃ m : Nat, L + c = Int.negSucc m := by
      refine ⟨(-(L + c) - 1).toNat, ?_⟩
      rw [Int.negSucc_eq]
      omega
    obtain ⟨k, hk⟩ : ∃ k : Nat, c = Int.negSucc k := by
      refine ⟨(-c - 1).toNat, ?_⟩
      rw [Int.negSucc_eq]
      omega
    have hmk : m < k := by
      rw [Int.negSucc_eq] at hm hk
      omega
    rw [hm, hk]
    have hdiv : (Int.negSucc m).fdiv (Int.negSucc k) =
        Int.ofNat (Nat.succ m / Nat.succ k) := rfl
    rw [hdiv, Nat.div_eq_of_lt (by omega)]
    exact le_refl 0

/-! ### Permutation invariance of the parameter-normalization pass -/

theorem applyCbmap_perm {σ : Type} (self : σ)
    (cbmap : List (String × (σ → String))) :
    ∀ (p₁ p₂ : List (String × String)), p₁.Perm p₂ →
      (applyCbmap self cbmap p₁).Perm (applyCbmap self cbmap p₂) := by
  induction cbmap with
  | nil => intro p₁ p₂ h; exact h
  | cons kc rest ih =>
      intro p₁ p₂ h
      simp only [applyCbmap]
      apply ih
      by_cases hm : kc.1 ∈ p₁.map Prod.fst
      · have hm₂ : kc.1 ∈ p₂.map Prod.fst := (h.map Prod.fst).mem_iff.mp hm
        rw [if_pos hm, if_pos hm₂]
        exact h.map _
      · have hm₂ : kc.1 ∉ p₂.map Prod.fst := fun hh =>
          hm ((h.map Prod.fst).mem_iff.mpr hh)
        rw [if_neg hm, if_neg hm₂]
        exact h

theorem buildName_eq_of_perm {σ : Type} (sha1hex : String → String) (self : σ)
    (cbmap : List (String × (σ → String)))
    (p₁ p₂ : List (String × String)) (h : p₁.Perm p₂) (digest : Bool) :
    buildName sha1hex self cbmap p₁ digest =
      buildName sha1hex self cbmap p₂ digest := by
  simp only [buildName]
  rw [insertionSort_eq_of_perm _ _
    ((applyCbmap_perm self cbmap p₁ p₂ h).map (fun p => p.1 ++ "-" ++ p.2))]

/-! ### Claim theorems -/

/-- C2: the canonical path builder is deterministic: two calls of
`BaseTask.path` whose inputs agree componentwise — hash function, `BASE`,
`TAG`, task name, serialized parameters, task object, filename, extension,
digest flag and callback map — return identical strings.  The embedding is
a pure function of exactly these inputs (the source reads nothing else: no
clock, no environment), so equal inputs always yield the identical path. -/
theorem path_deterministic {σ : Type} (sha1hex₁ sha1hex₂ : String → String)
    (B₁ B₂ T₁ T₂ : Option String) (n₁ n₂ : String)
    (ps₁ ps₂ : List (String × String)) (self₁ self₂ : σ)
    (f₁ f₂ : Option String) (e₁ e₂ : String) (d₁ d₂ : Bool)
    (cb₁ cb₂ : List (String × (σ → String)))
    (hs : sha1hex₁ = sha1hex₂) (hB : B₁ = B₂) (hT : T₁ = T₂) (hn : n₁ = n₂)
    (hp : ps₁ = ps₂) (hself : self₁ = self₂) (hf : f₁ = f₂) (he : e₁ = e₂)
    (hd : d₁ = d₂) (hcb : cb₁ = cb₂) :
    path sha1hex₁ B₁ T₁ n₁ ps₁ self₁ f₁ e₁ d₁ cb₁ =
      path sha1hex₂ B₂ T₂ n₂ ps₂ self₂ f₂ e₂ d₂ cb₂ := by
  subst hs hB hT hn hp hself hf he hd hcb
  rfl

/-- witness for C2: two identical concrete calls evaluate to the same
concrete path. -/
theorem path_deterministic_witness :
    path (fun s => s) (some "/base") (some "tag") "T" [("k", "v")] ()
        none "tsv" false ([] : List (String × (Unit → String))) =
      path (fun s => s) (some "/base") (some "tag") "T" [("k", "v")] ()
        none "tsv" false ([] : List (String × (Unit → String))) ∧
    path (fun s => s) (some "/base") (some "tag") "T" [("k", "v")] ()
        none "tsv" false ([] : List (String × (Unit → String))) =
      Except.ok "/base/tag/T/k-v.tsv" :=
  ⟨path_deterministic (fun s => s) (fun s => s) (some "/base") (some "/base")
      (some "tag") (some "tag") "T" "T" [("k", "v")] [("k", "v")] () ()
      none none "tsv" "tsv" false false [] []
      rfl rfl rfl rfl rfl rfl rfl rfl rfl rfl,
    by decide⟩

/-- C3: permuting the insertion order of the parameter mapping does not
change the path built by `BaseTask.path`: the `'{k}-{v}'` pair strings are
sorted before being joined, so any two insertion orders of the same mapping
produce equal paths. -/
theorem path_order_independent {σ : Type} (sha1hex : String → String)
    (BASE TAG : Option String) (task_name : String)
    (ps₁ ps₂ : List (String × String)) (self : σ) (filename : Option String)
    (ext : String) (digest : Bool) (cbmap : List (String × (σ → String)))
    (h : ps₁.Perm ps₂) :
    path sha1hex BASE TAG task_name ps₁ self filename ext digest cbmap =
      path sha1hex BASE TAG task_name ps₂ self filename ext digest cbmap := by
  unfold path
  by_cases hcfg : TAG = none ∨ BASE = none
  · rw [if_pos hcfg, if_pos hcfg]
  · rw [if_neg hcfg, if_neg hcfg]
    cases filename with
    | some f => rfl
    | none =>
        simp only []
        rw [buildName_eq_of_perm sha1hex self cbmap ps₁ ps₂ h digest]

/-- witness for C3: two insertion orders of the same two-parameter mapping
produce the same concrete path. -/
theorem path_order_independent_witness :
    path (fun s => s) (some "/base") (some "tag") "T" [("k", "v"), ("a", "b")]
        () none "tsv" false ([] : List (String × (Unit → String))) =
      path (fun s => s) (some "/base") (some "tag") "T" [("a", "b"), ("k", "v")]
        () none "tsv" false ([] : List (String × (Unit → String))) ∧
    path (fun s => s) (some "/base") (some "tag") "T" [("k", "v"), ("a", "b")]
        () none "tsv" false ([] : List (String × (Unit → String))) =
      Except.ok "/base/tag/T/a-b-k-v.tsv" :=
  ⟨path_order_independent (fun s => s) (some "/base") (some "tag") "T"
      [("k", "v"), ("a", "b")] [("a", "b"), ("k", "v")] () none "tsv" false []
      (List.Perm.swap ("a", "b") ("k", "v") []),
    by decide⟩

/-- C7: if `BASE` or `TAG` is unset (`NotImplemented`), `BaseTask.path`
fails with the configuration error instead of returning any path. -/
theorem path_misconfigured {σ : Type} (sha1hex : String → String)
    (BASE TAG : Option String) (task_name : String)
    (ps : List (String × String)) (self : σ) (filename : Option String)
    (ext : String) (digest : Bool) (cbmap : List (String × (σ → String)))
    (h : TAG = none ∨ BASE = none) :
    path sha1hex BASE TAG task_name ps self filename ext digest cbmap =
      Except.error PathError.notConfigured := by
  unfold path
  rw [if_pos h]

/-- witness for C7: a task with unset `BASE` fails with the configuration
error. -/
theorem path_misconfigured_witness :
    path (fun s => s) none (some "tag") "T" [("k", "v")] () none "tsv" false
        ([] : List (String × (Unit → String))) =
      Except.error PathError.notConfigured :=
  path_misconfigured (fun s => s) none (some "tag") "T" [("k", "v")] ()
    none "tsv" false [] (Or.inr rfl)

/-- C10: when an explicit `filename` is passed, `BaseTask.path` returns
exactly `join(BASE, TAG, task_name, filename)` — the `ext`, `digest` and
`cbmap` arguments and the parameters have no effect — while the `BASE`/`TAG`
configuration check is still performed first. -/
theorem path_explicit_filename {σ : Type} (sha1hex : String → String)
    (BASE TAG : Option String) (task_name : String)
    (ps : List (String × String)) (self : σ) (f ext : String) (digest : Bool)
    (cbmap : List (String × (σ → String))) :
    (∀ b t, BASE = some b → TAG = some t →
      path sha1hex BASE TAG task_name ps self (some f) ext digest cbmap =
        Except.ok (osPathJoin (osPathJoin (osPathJoin b t) task_name) f)) ∧
    (TAG = none ∨ BASE = none →
      path sha1hex BASE TAG task_name ps self (some f) ext digest cbmap =
        Except.error PathError.notConfigured) := by
  constructor
  · intro b t hb ht
    subst hb ht
    unfold path
    rw [if_neg (by simp)]
    rfl
  · intro h
    unfold path
    rw [if_pos h]

/-- witness for C10: with an explicit filename, parameters, extension,
digest flag and callbacks are all ignored. -/
theorem path_explicit_filename_witness :
    path (fun _ => "HASH") (some "/base") (some "tag") "T" [("k", "v")] ()
        (some "data.xml") "tsv" true ([] : List (String × (Unit → String))) =
      Except.ok "/base/tag/T/data.xml" := by
  have h := (path_explicit_filename (fun _ => "HASH") (some "/base")
    (some "tag") "T" [("k", "v")] () "data.xml" "tsv" true []).1
    "/base" "tag" rfl rfl
  rw [h]
  decide

/-- C5: with the normalization rule mapping every date to the first day of
its month, two `ExampleTask` identities that differ only in their `date`
parameter but fall in the same month produce the identical canonical
path. -/
theorem path_normalization_collapse (sha1hex : String → String)
    (BASE TAG : Option String) (otherParams : List (String × String))
    (t₁ t₂ : ExampleTask) (hy : t₁.date.year = t₂.date.year)
    (hm : t₁.date.month = t₂.date.month) :
    examplePath sha1hex BASE TAG otherParams t₁ =
      examplePath sha1hex BASE TAG otherParams t₂ := by
  have hnear : showDate t₁.nearestDate = showDate t₂.nearestDate := by
    unfold ExampleTask.nearestDate showDate
    rw [hy, hm]
  have key : applyCbmap t₁ exampleCbmap (otherParams ++ [("date", showDate t₁.date)]) =
      applyCbmap t₂ exampleCbmap (otherParams ++ [("date", showDate t₂.date)]) := by
    simp only [applyCbmap, exampleCbmap]
    rw [if_pos (by simp), if_pos (by simp)]
    simp only [List.map_append, List.map_cons, List.map_nil]
    rw [hnear]
    simp
  have hb : buildName sha1hex t₁ exampleCbmap
      (otherParams ++ [("date", showDate t₁.date)]) false =
      buildName sha1hex t₂ exampleCbmap
        (otherParams ++ [("date", showDate t₂.date)]) false := by
    simp only [buildName]
    rw [key]
  unfold examplePath path
  by_cases hcfg : TAG = none ∨ BASE = none
  · rw [if_pos hcfg, if_pos hcfg]
  · rw [if_neg hcfg, if_neg hcfg]
    simp only []
    rw [hb]

/-- witness for C5: `date=2020-01-05` and `date=2020-01-20` collapse to the
identical canonical path `date-2020-01-01.tsv`. -/
theorem path_normalization_collapse_witness :
    examplePath (fun s => s) (some "/base") (some "tag") [] ⟨⟨2020, 1, 5⟩⟩ =
      examplePath (fun s => s) (some "/base") (some "tag") [] ⟨⟨2020, 1, 20⟩⟩ ∧
    examplePath (fun s => s) (some "/base") (some "tag") [] ⟨⟨2020, 1, 5⟩⟩ =
      Except.ok "/base/tag/ExampleTask/date-2020-01-01.tsv" :=
  ⟨path_normalization_collapse (fun s => s) (some "/base") (some "tag") []
      ⟨⟨2020, 1, 5⟩⟩ ⟨⟨2020, 1, 20⟩⟩ rfl rfl,
    by decide⟩

/-- C6: when the concrete task does not implement the `nearest` capability,
the `nearest` normalization helper fails fast with the missing-capability
error (`AttributeError('Missing attribute.')`); it never silently returns
any value, in particular not the raw parameter value. -/
theorem nearest_missing_capability (obj : PyObj) (h : obj.nearestAttr = none) :
    nearest obj = Except.error AttrError.missingAttribute ∧
      ∀ v, nearest obj ≠ Except.ok v := by
  have e : nearest obj = Except.error AttrError.missingAttribute := by
    unfold nearest
    rw [h]
  refine ⟨e, fun v hv => ?_⟩
  rw [e] at hv
  cases hv

/-- witness for C6: an object without the `nearest` attribute makes
`nearest` fail with the missing-capability error. -/
theorem nearest_missing_capability_witness :
    nearest ⟨none⟩ = Except.error AttrError.missingAttribute :=
  (nearest_missing_capability ⟨none⟩ rfl).1

/-- C1: for every readable input file and every `chunks ≥ 1`, `SplitFile.run`
succeeds and concatenating the chunk files listed in its manifest, in
manifest order, reproduces the original file exactly. -/
theorem splitFile_roundtrip (ls : List String) (chunks : Int)
    (h : 1 ≤ chunks) :
    (splitFileRun (some ls) chunks).error = none ∧
      ∃ cs, (splitFileRun (some ls) chunks).manifest = some cs ∧
        cs.flatten = ls := by
  simp only [splitFileRun]
  rw [if_neg (by omega : ¬ chunks = 0)]
  have hpos : 1 ≤ linesPerChunk ls.length chunks :=
    linesPerChunk_pos _ _ (by omega) h
  rw [if_neg (by omega)]
  exact ⟨rfl, splitChunks (linesPerChunk ls.length chunks).toNat ls, rfl,
    splitChunks_join _ (by omega) ls⟩

/-- witness for C1: splitting a three-line file into two chunks succeeds and
its manifest concatenates back to the original lines. -/
theorem splitFile_roundtrip_witness :
    (splitFileRun (some ["a", "b", "c"]) 2).error = none ∧
      ∃ cs, (splitFileRun (some ["a", "b", "c"]) 2).manifest = some cs ∧
        cs.flatten = ["a", "b", "c"] :=
  splitFile_roundtrip ["a", "b", "c"] 2 (by decide)

/-- C4: `SplitFile.run` computes `lines_per_chunk = floor((line_count +
chunks) / chunks)` in exact integer arithmetic; for `line_count = 100` and
`chunks = 10` this is `11`, which is not the ceiling `10` of `100/10`, and
splitting 100 lines into chunks of 11 yields exactly 10 chunk files, nine of
11 lines and one of 1 line. -/
theorem splitFile_chunk_count_law :
    linesPerChunk 100 10 = 11 ∧
      ¬ linesPerChunk 100 10 = (100 + 10 - 1) / 10 ∧
      (splitChunks 11 (List.replicate 100 (0 : Nat))).length = 10 ∧
      (splitChunks 11 (List.replicate 100 (0 : Nat))).map List.length =
        List.replicate 9 11 ++ [1] :=
  ⟨by decide, by decide, by decide, by decide⟩

/-- counterexample to C8 as stated: with `chunks = -5` and an empty (and
readable) input file, `lines = int((0 - 5) / -5) = 1`, so `split -l 1` runs
on the empty input, produces no chunk files, and the task completes without
any error, writing an (empty) manifest — it does not fail. -/
theorem splitFile_c8_counterexample :
    ((-5 : Int) ≤ 0) ∧
      (splitFileRun (some ([] : List String)) (-5)).error = none ∧
      (splitFileRun (some ([] : List String)) (-5)).manifest = some [] :=
  ⟨by decide, by decide, by decide⟩

/-- C8 amended: for an unreadable input, for `chunks = 0`, and for
`chunks < 0` with a non-empty input, `SplitFile.run` fails with a fatal
error before any chunk file is written and produces no manifest (the one
exception forced by the counterexample — `chunks < 0` with an empty input —
completes successfully with an empty manifest). -/
theorem splitFile_fails_early (file : Option (List String)) (chunks : Int)
    (h : file = none ∨ chunks = 0 ∨
      (chunks < 0 ∧ ∀ ls, file = some ls → ls ≠ [])) :
    (splitFileRun file chunks).error ≠ none ∧
      (splitFileRun file chunks).chunkFiles = [] ∧
      (splitFileRun file chunks).manifest = none := by
  cases file with
  | none => exact ⟨by simp [splitFileRun], rfl, rfl⟩
  | some ls =>
      rcases h with h | h | ⟨hneg, hne⟩
      · cases h
      · subst h
        simp [splitFileRun]
      · have hlen : 1 ≤ (ls.length : Int) := by
          have : ls ≠ [] := hne ls rfl
          have : 0 < ls.length := List.length_pos.mpr this
          omega
        have hnp : linesPerChunk ls.length chunks ≤ 0 :=
          linesPerChunk_nonpos _ _ hlen (by omega)
        simp only [splitFileRun]
        rw [if_neg (by omega : ¬ chunks = 0), if_pos hnp]
        exact ⟨by simp, rfl, rfl⟩

/-- witness for C8 amended: `chunks = 0` on a one-line readable file fails
with no chunk files and no manifest. -/
theorem splitFile_fails_early_witness :
    (splitFileRun (some ["a"]) 0).error ≠ none ∧
      (splitFileRun (some ["a"]) 0).chunkFiles = [] ∧
      (splitFileRun (some ["a"]) 0).manifest = none :=
  splitFile_fails_early (some ["a"]) 0 (Or.inr (Or.inl rfl))

/-- C9: `Executable.complete()` is true exactly when the named executable
resolves in the environment's search path, and `Executable.run()` always
fails with the missing-dependency error that names the binary (it never
returns successfully). -/
theorem executable_contract (searchPath : List String) (name message : String) :
    (executableComplete searchPath name = true ↔ name ∈ searchPath) ∧
      executableRun name message =
        Except.error ("External app " ++ name ++ " required.\n" ++ message) ∧
      ∀ u, executableRun name message ≠ Except.ok u := by
  refine ⟨?_, rfl, fun u hv => by cases hv⟩
  unfold executableComplete which
  by_cases h : name ∈ searchPath <;> simp [h]

end Gluish
